import Mathlib

/-!
Shallow embedding of `fix_price_function.py`, a one-shot text patcher:
it reads `unified_bot.js`, performs `re.sub(pattern, new_function, content, count=1)`
with the fixed Python regex

  async function getRealMarketPrice\\([^)]+\\)\\s*\\{[^}]*(?:\\{[^}]*\\}[^}]*)*\\}

and the fixed replacement string `new_function`, writes the result back, and
unconditionally prints one success message.

The regex is embedded as a deterministic matcher `pyMatchAt`.  Python's
backtracking engine makes this pattern deterministic: `[^)]+` is a greedy scan
to the first `)` (requiring at least one character), `\\s*` is a greedy
whitespace scan that cannot trade characters with the following literal `{`,
and inside the body `[^}]*` greedily consumes everything up to the first `}`,
at which point the group `(?:\\{[^}]*\\}[^}]*)*` cannot start (the next
character is `}`), so it contributes zero iterations and the final `\\}`
consumes that first `}`.  Hence a match is: the literal header, a nonempty
run of non-`)` characters, `)`, a maximal run of `\\s` characters, `{`, a run
of non-`}` characters, and the first `}` after the opening brace.

The replacement string contains no backslash, so Python template expansion is
the identity and the replacement is literal.  Text is modelled as `List Char`
(Unicode codepoints, as Python `str`); the file read/write is UTF-8 on both
ends, so codepoint equality outside the replaced region is byte equality.
-/

/-- The character `{` (code 123). -/
def lbrace : Char := Char.ofNat 123

/-- The character `}` (code 125). -/
def rbrace : Char := Char.ofNat 125

/-- The literal part of the regex: `async function getRealMarketPrice\\(`. -/
def headerStr : String := "async function getRealMarketPrice("

/-- The header as a character list. -/
def headerChars : List Char := headerStr.data

/-- The fixed replacement string `new_function` of the script, verbatim. -/
def newFunctionStr : String := "async function getRealMarketPrice(marketId) \x7b\n    const cacheKey = `price_$\x7bmarketId\x7d`;\n    const cached = priceCache.get(cacheKey);\n    \n    // Utiliser le cache si disponible et récent\n    if (cached && Date.now() - cached.timestamp < PRICE_CACHE_TTL) \x7b\n        return cached.price;\n    \x7d\n    \n    try \x7b\n        // Utiliser l'API Gamma qui retourne les VRAIS prix de Polymarket\n        const response = await fetchWithRetry(`https://gamma-api.polymarket.com/markets/$\x7bmarketId\x7d`);\n        \n        if (response.ok) \x7b\n            const market = await response.json();\n            let price = 0;\n            \n            // 1. Priorité au dernier prix de trade (le plus récent et réel)\n            if (market.lastTradePrice) \x7b\n                price = parseFloat(market.lastTradePrice);\n            \x7d\n            // 2. Sinon utiliser les prix des outcomes (YES price)\n            else if (market.outcomePrices && market.outcomePrices.length > 0) \x7b\n                price = parseFloat(market.outcomePrices[0]);\n            \x7d\n            \n            if (price > 0 && price < 1) \x7b\n                priceCache.set(cacheKey, \x7b price, timestamp: Date.now() \x7d);\n                return price;\n            \x7d\n        \x7d\n    \x7d catch (e) \x7b\n        console.error(`❌ Erreur fetch prix pour market $\x7bmarketId\x7d:`, e.message);\n    \x7d\n    \n    return null; // Retourne null si échec\n\x7d"

/-- The replacement as a character list. -/
def newFunction : List Char := newFunctionStr.data

/-- Codepoints matched by Python regex `\\s` on `str` (Unicode whitespace). -/
def pySpaceCodes : List Nat :=
  [9, 10, 11, 12, 13, 28, 29, 30, 31, 32, 133, 160, 5760, 8192, 8193, 8194,
   8195, 8196, 8197, 8198, 8199, 8200, 8201, 8202, 8232, 8233, 8239, 8287, 12288]

/-- Python `\\s` as a predicate on characters. -/
def isPySpace (c : Char) : Bool := pySpaceCodes.contains c.toNat

/-- Strip an exact literal from the front of a list, returning the rest. -/
def stripExact : List Char → List Char → Option (List Char)
  | [], l => some l
  | _ :: _, [] => none
  | p :: ps, c :: cs => if c = p then stripExact ps cs else none

/-- Split at the first occurrence of `stop`: chars before it, and chars after it. -/
def splitAtFirst (stop : Char) : List Char → Option (List Char × List Char)
  | [] => none
  | c :: cs =>
    if c = stop then some ([], cs)
    else
      match splitAtFirst stop cs with
      | none => none
      | some (a, b) => some (c :: a, b)

/-- Length of the regex match anchored at the start of `l`, if any.
This is the deterministic reading of the pattern justified in the header
comment: header, nonempty argument run to the first `)`, the `)`, a maximal
run of `\\s`, `{`, a run of non-`}` characters, and the first `}`. -/
def pyMatchAt (l : List Char) : Option Nat :=
  match stripExact headerChars l with
  | none => none
  | some r1 =>
    match splitAtFirst ')' r1 with
    | none => none
    | some (args, r2) =>
      if args.isEmpty then none
      else
        match r2.dropWhile isPySpace with
        | [] => none
        | c :: r4 =>
          if c = lbrace then
            match splitAtFirst rbrace r4 with
            | none => none
            | some (body, _) =>
              some (headerChars.length + args.length + 1 +
                    (r2.takeWhile isPySpace).length + 1 + body.length + 1)
          else none

/-- `re.sub(pattern, new_function, content, count=1)`: scan left to right for
the first position where the pattern matches, splice in the replacement, and
copy the rest verbatim; if no position matches, return the input unchanged. -/
def subOnce : List Char → List Char
  | [] => []
  | c :: cs =>
    match pyMatchAt (c :: cs) with
    | some n => newFunction ++ (c :: cs).drop n
    | none => c :: subOnce cs

/-- All positions of `l` at which the pattern matches. -/
def matchStarts : List Char → List Nat
  | [] => []
  | c :: cs =>
    if (pyMatchAt (c :: cs)).isSome then 0 :: (matchStarts cs).map (fun k => k + 1)
    else (matchStarts cs).map (fun k => k + 1)

/-- The one fixed console message of the script. -/
def successMessage : String := "✅ Fonction getRealMarketPrice corrigée !"

/-- One run of the tool on in-memory contents: the written-back contents and
the printed message.  The print is unconditional in the script. -/
def fixPriceRun (c : List Char) : List Char × String := (subOnce c, successMessage)

/-- The only failure mode of the script: an unhandled exception while opening,
reading, or decoding the target file (there is no try/except around the I/O). -/
inductive PyError
  | readFailure

/-- Whole-program model over a fallible read: `none` means the initial open,
read, or decode raised; the script has no handler, so the error propagates and
neither the substitution nor the write nor the print happens. -/
def fixPriceProgram : Option (List Char) → Except PyError (List Char × String)
  | none => Except.error PyError.readFailure
  | some c => Except.ok (fixPriceRun c)

/-- A minimal contents whose single match covers the whole string. -/
def demoOne : List Char := "async function getRealMarketPrice(a) \x7bb\x7d".data

/-- Contents with no match at all. -/
def demoNoMatch : List Char := "const x = 1; // nothing to patch ✨".data

/-- Contents with exactly one match, surrounded by non-ASCII text. -/
def demoPrefixed : List Char :=
  "α β async function getRealMarketPrice(id) \x7breturn 0;\x7d // 🚀 fin".data

/-- Contents with two matches. -/
def demoTwo : List Char :=
  "async function getRealMarketPrice(a) \x7bb\x7d mid async function getRealMarketPrice(c) \x7bd\x7d".data

/-- Header plus a brace-balanced body of nesting depth exactly one. -/
def demoDepthOne : List Char :=
  "async function getRealMarketPrice(x) \x7ba\x7bb\x7dc\x7d".data

set_option maxRecDepth 100000

/-! ## Generic lemmas about the scanning primitives -/

/-- Stripping a literal off a list that starts with it succeeds. -/
theorem stripExact_append (p l : List Char) : stripExact p (p ++ l) = some l := by
  induction p with
  | nil => rfl
  | cons c cs ih => simp [stripExact, ih]

/-- Splitting at the first `stop` of `a ++ stop :: b` when `a` avoids `stop`. -/
theorem splitAtFirst_append (stop : Char) (a b : List Char)
    (h : ∀ c ∈ a, ¬c = stop) :
    splitAtFirst stop (a ++ stop :: b) = some (a, b) := by
  induction a with
  | nil => simp [splitAtFirst]
  | cons x xs ih =>
    have hx : ¬x = stop := h x (List.mem_cons_self x xs)
    simp [splitAtFirst, hx, ih (fun c hc => h c (List.mem_cons_of_mem x hc))]

/-- takeWhile over a prefix that all satisfies `p`, stopped by `c`. -/
theorem takeWhile_all_append (p : Char → Bool) (ws t : List Char) (c : Char)
    (h : ∀ x ∈ ws, p x = true) (hc : p c = false) :
    (ws ++ c :: t).takeWhile p = ws := by
  induction ws with
  | nil => simp [List.takeWhile, hc]
  | cons w ws' ih =>
    have hw : p w = true := h w (List.mem_cons_self w ws')
    simp [List.takeWhile, hw, ih (fun x hx => h x (List.mem_cons_of_mem w hx))]

/-- dropWhile over a prefix that all satisfies `p`, stopped by `c`. -/
theorem dropWhile_all_append (p : Char → Bool) (ws t : List Char) (c : Char)
    (h : ∀ x ∈ ws, p x = true) (hc : p c = false) :
    (ws ++ c :: t).dropWhile p = c :: t := by
  induction ws with
  | nil => simp [List.dropWhile, hc]
  | cons w ws' ih =>
    have hw : p w = true := h w (List.mem_cons_self w ws')
    simp [List.dropWhile, hw, ih (fun x hx => h x (List.mem_cons_of_mem w hx))]

/-! ## Lemmas about the matcher and the substitution -/

/-- The pattern never matches the empty string. -/
theorem pyMatchAt_nil : pyMatchAt [] = none := by decide

/-- When the pattern matches at the head, `subOnce` splices the replacement. -/
theorem subOnce_eq_of_match (l : List Char) (n : Nat) (h : pyMatchAt l = some n) :
    subOnce l = newFunction ++ l.drop n := by
  cases l with
  | nil => rw [pyMatchAt_nil] at h; cases h
  | cons c cs => simp [subOnce, h]

/-- With no match anywhere, `subOnce` is the identity. -/
theorem subOnce_of_no_match (l : List Char) (h : matchStarts l = []) :
    subOnce l = l := by
  induction l with
  | nil => rfl
  | cons c cs ih =>
    cases hp : pyMatchAt (c :: cs) with
    | some n =>
      exfalso
      simp only [matchStarts] at h
      rw [hp] at h
      simp at h
    | none =>
      simp only [matchStarts] at h
      rw [hp] at h
      simp at h
      simp [subOnce, hp, ih h]

/-- Core splice lemma: if `i` heads the list of match positions, `subOnce`
replaces exactly the match at `i` and copies everything else verbatim. -/
theorem subOnce_splice (l : List Char) (i : Nat) (rest : List Nat)
    (h : matchStarts l = i :: rest) :
    ∃ n, pyMatchAt (l.drop i) = some n ∧
      subOnce l = l.take i ++ newFunction ++ l.drop (i + n) := by
  induction l generalizing i rest with
  | nil => simp [matchStarts] at h
  | cons c cs ih =>
    cases hp : pyMatchAt (c :: cs) with
    | some n =>
      simp only [matchStarts] at h
      rw [hp] at h
      simp at h
      obtain ⟨hi, _⟩ := h
      refine ⟨n, ?_, ?_⟩
      · rw [← hi]; simpa using hp
      · rw [← hi]
        simp [subOnce, hp]
    | none =>
      simp only [matchStarts] at h
      rw [hp] at h
      simp at h
      cases hcs : matchStarts cs with
      | nil => rw [hcs] at h; simp at h
      | cons i' rest' =>
        rw [hcs] at h
        simp at h
        obtain ⟨hi, _⟩ := h
        obtain ⟨n, hn, hsub⟩ := ih i' rest' hcs
        refine ⟨n, ?_, ?_⟩
        · rw [← hi]; simpa using hn
        · rw [← hi]
          have hd : (c :: cs).drop (i' + 1 + n) = cs.drop (i' + n) := by
            rw [Nat.add_right_comm i' 1 n]
            exact List.drop_succ_cons
          simp [subOnce, hp, hsub, List.take_succ_cons, hd]

/-- The match inside the replacement text: it starts at position 0 and ends at
the first closing brace of the body, 85 characters in. -/
theorem pyMatchAt_newFunction : pyMatchAt newFunction = some 85 := by decide

/-- Length of the replacement text. -/
theorem newFunction_length : newFunction.length = 1362 := by decide

/-- On the minimal single-match contents, one run yields the replacement. -/
theorem subOnce_demoOne : subOnce demoOne = newFunction := by
  have h := subOnce_eq_of_match demoOne 40 (by decide)
  rw [h]
  have hd : demoOne.drop 40 = [] := by decide
  rw [hd, List.append_nil]

/-- A second pass over the replacement changes it again. -/
theorem subOnce_newFunction_ne : subOnce newFunction ≠ newFunction := by
  rw [subOnce_eq_of_match newFunction 85 pyMatchAt_newFunction]
  intro heq
  have hl := congrArg List.length heq
  rw [List.length_append, List.length_drop, newFunction_length] at hl
  omega

/-! ## Amended characterization of the pattern -/

/-- The match always ends at the first closing brace after the opening brace:
for a header, a nonempty `)`-free argument run, `)`, whitespace, `{`, a
`}`-free body run and the first `}`, the match covers exactly that region,
whatever follows — the nested-brace group of the regex never extends it. -/
theorem pyMatchAt_first_rbrace (args ws body rest : List Char)
    (hargsne : args ≠ [])
    (hargs : ∀ c ∈ args, ¬c = ')')
    (hws : ∀ x ∈ ws, isPySpace x = true)
    (hbody : ∀ c ∈ body, ¬c = rbrace) :
    pyMatchAt (headerChars ++ args ++ ')' :: (ws ++ lbrace :: (body ++ rbrace :: rest))) =
      some (headerChars.length + args.length + 1 + ws.length + 1 + body.length + 1) := by
  have h2 := splitAtFirst_append ')' args (ws ++ lbrace :: (body ++ rbrace :: rest)) hargs
  have h5 := splitAtFirst_append rbrace body rest hbody
  have hlb : isPySpace lbrace = false := by decide
  have h3 := dropWhile_all_append isPySpace ws (body ++ rbrace :: rest) lbrace hws hlb
  have h4 := takeWhile_all_append isPySpace ws (body ++ rbrace :: rest) lbrace hws hlb
  have hne : args.isEmpty = false := by
    cases args with
    | nil => exact absurd rfl hargsne
    | cons a as => rfl
  rw [List.append_assoc]
  simp only [pyMatchAt, stripExact_append, h2, hne, h3, h4, h5]
  simp

/-! ## The claims -/

/-- Claim C1: for contents with exactly one occurrence of a pattern match
(at position `i`), one run writes back the contents with that occurrence
replaced by the literal replacement text, and every character outside the
replaced region — the prefix before `i` and the suffix after the match,
non-ASCII characters included — is copied verbatim.  Characters are Unicode
codepoints and both read and write use UTF-8, so this is byte-for-byte
preservation outside the replaced region. -/
theorem single_match_replaced_frame (c : List Char) (i : Nat)
    (h : matchStarts c = [i]) :
    ∃ n, pyMatchAt (c.drop i) = some n ∧
      subOnce c = c.take i ++ newFunction ++ c.drop (i + n) :=
  subOnce_splice c i [] h

/-- Witness for C1 on contents with non-ASCII text around the one match. -/
theorem single_match_replaced_frame_witness :
    matchStarts demoPrefixed = [4] ∧
    ∃ n, pyMatchAt (demoPrefixed.drop 4) = some n ∧
      subOnce demoPrefixed =
        demoPrefixed.take 4 ++ newFunction ++ demoPrefixed.drop (4 + n) :=
  ⟨by decide, single_match_replaced_frame demoPrefixed 4 (by decide)⟩

/-- Claim C2: when the pattern has no match in the contents, the substitution
raises no error and leaves the contents unchanged, and the run writes the
unchanged contents back verbatim (with the success message still printed). -/
theorem no_match_no_change (c : List Char) (h : matchStarts c = []) :
    subOnce c = c ∧ fixPriceRun c = (c, successMessage) := by
  have hs := subOnce_of_no_match c h
  exact ⟨hs, by simp [fixPriceRun, hs]⟩

/-- Witness for C2 on contents with no match. -/
theorem no_match_no_change_witness :
    subOnce demoNoMatch = demoNoMatch ∧
    fixPriceRun demoNoMatch = (demoNoMatch, successMessage) :=
  no_match_no_change demoNoMatch (by decide)

/-- Claim C3 is false on the code: the proviso fails because the pattern
matches inside the replacement text itself, and running the transformation
twice on a minimal single-match contents differs from running it once — the
second run re-patches a proper prefix of the inserted replacement. -/
theorem run_twice_differs_from_once :
    subOnce (subOnce demoOne) ≠ subOnce demoOne := by
  rw [subOnce_demoOne]
  exact subOnce_newFunction_ne

/-- Claim C3 (amended): the tool is not idempotent.  The replacement text
itself contains a match of the search pattern (ending at the first closing
brace, 85 of its 1362 characters in), so the stated proviso fails, and
running the transformation twice on a single-match contents yields different
final contents than running it once. -/
theorem not_idempotent_replacement_self_match :
    pyMatchAt newFunction = some 85 ∧ 85 < newFunction.length ∧
    subOnce (subOnce demoOne) ≠ subOnce demoOne := by
  refine ⟨pyMatchAt_newFunction, ?_, ?_⟩
  · rw [newFunction_length]; omega
  · rw [subOnce_demoOne]; exact subOnce_newFunction_ne

/-- Claim C4 is false on the code: on a header followed by a brace-balanced
body of nesting depth exactly one (`{a{b}c}`), the match stops at the first
closing brace (42 of 44 characters) and does not cover the whole body. -/
theorem depth_one_not_fully_covered :
    pyMatchAt demoDepthOne = some 42 ∧ demoDepthOne.length = 44 ∧
    ¬pyMatchAt demoDepthOne = some demoDepthOne.length := by decide

/-- Claim C4 (amended): the pattern matches the header, a nonempty
argument run, the closing parenthesis, a maximal whitespace run and the
opening brace, and then extends only to the first closing brace after the
opening brace: the nested-brace group never extends the match, so any body
with an internal closing brace — nesting depth one included — is cut there
rather than covered whole. -/
theorem match_stops_at_first_closing_brace (args ws body rest : List Char)
    (hargsne : args ≠ [])
    (hargs : ∀ c ∈ args, ¬c = ')')
    (hws : ∀ x ∈ ws, isPySpace x = true)
    (hbody : ∀ c ∈ body, ¬c = rbrace) :
    pyMatchAt (headerChars ++ args ++ ')' :: (ws ++ lbrace :: (body ++ rbrace :: rest))) =
      some (headerChars.length + args.length + 1 + ws.length + 1 + body.length + 1) :=
  pyMatchAt_first_rbrace args ws body rest hargsne hargs hws hbody

/-- Witness for the amended C4: a depth-one remainder after the first
closing brace is left outside the match. -/
theorem match_stops_at_first_closing_brace_witness :
    pyMatchAt (headerChars ++ ['a'] ++ ')' ::
        ([' '] ++ lbrace :: (['b'] ++ rbrace :: [lbrace, 'c', rbrace, rbrace]))) =
      some (headerChars.length + List.length ['a'] + 1 + List.length [' '] + 1 +
            List.length ['b'] + 1) :=
  match_stops_at_first_closing_brace ['a'] [' '] ['b'] [lbrace, 'c', rbrace, rbrace]
    (by decide) (by decide) (by decide) (by decide)

/-- Claim C5: on contents with two or more pattern matches, exactly one
substitution is performed, on the leftmost match, and the whole suffix after
it — every later occurrence included — is copied unchanged. -/
theorem first_of_many_replaced (c : List Char) (i j : Nat) (tl : List Nat)
    (h : matchStarts c = i :: j :: tl) :
    ∃ n, pyMatchAt (c.drop i) = some n ∧
      subOnce c = c.take i ++ newFunction ++ c.drop (i + n) :=
  subOnce_splice c i (j :: tl) h

/-- Witness for C5 on contents with two matches. -/
theorem first_of_many_replaced_witness :
    matchStarts demoTwo = [0, 45] ∧
    ∃ n, pyMatchAt (demoTwo.drop 0) = some n ∧
      subOnce demoTwo = demoTwo.take 0 ++ newFunction ++ demoTwo.drop (0 + n) :=
  ⟨by decide, first_of_many_replaced demoTwo 0 45 [] (by decide)⟩

/-- Claim C6: whenever the read and write succeed, the run prints the same
single fixed success message, whatever the contents and whether or not a
replacement occurred. -/
theorem success_message_unconditional (c : List Char) :
    (fixPriceRun c).2 = successMessage := rfl

/-- Claim C7: if the initial open, read, or decode fails, the error
propagates unhandled: the program terminates with the error and produces no
substituted contents, no write, and no message — there is no recovery. -/
theorem read_failure_is_fatal :
    fixPriceProgram none = Except.error PyError.readFailure ∧
    ∀ out : List Char × String, fixPriceProgram none ≠ Except.ok out := by
  refine ⟨rfl, fun out h => ?_⟩
  simp [fixPriceProgram] at h

/-- Claim C8: the fixed replacement text itself contains a region matched by
the search pattern, and that region is a proper prefix of the replacement
rather than the whole function. -/
theorem replacement_matches_itself :
    ∃ n, pyMatchAt newFunction = some n ∧ n < newFunction.length := by
  refine ⟨85, pyMatchAt_newFunction, ?_⟩
  rw [newFunction_length]
  omega

/-- Claim C9: the transformation is deterministic — two runs on equal
contents produce equal written-back contents and equal printed messages;
the output depends only on the input contents and the fixed pattern and
replacement. -/
theorem run_deterministic (a b : List Char) (h : a = b) :
    fixPriceRun a = fixPriceRun b ∧ subOnce a = subOnce b := by
  subst h
  exact ⟨rfl, rfl⟩

/-- Witness for C9 at concrete equal inputs. -/
theorem run_deterministic_witness :
    fixPriceRun demoNoMatch = fixPriceRun demoNoMatch ∧
    subOnce demoNoMatch = subOnce demoNoMatch :=
  run_deterministic demoNoMatch demoNoMatch rfl

/-- Claim C10: the in-memory transformation is a total function — on every
input it terminates and returns contents (it is a terminating Lean function,
with the output length bounded by the input length plus the replacement
length), raising no exception. -/
theorem subOnce_total_with_bound (c : List Char) :
    ∃ r : List Char, subOnce c = r ∧ r.length ≤ c.length + newFunction.length := by
  refine ⟨subOnce c, rfl, ?_⟩
  induction c with
  | nil => simp [subOnce]
  | cons x xs ih =>
    cases hp : pyMatchAt (x :: xs) with
    | some n =>
      simp only [subOnce, hp]
      rw [List.length_append, List.length_drop]
      simp only [List.length_cons]
      omega
    | none =>
      simp only [subOnce, hp]
      simp only [List.length_cons]
      omega
